import Mathlib

/-!
Verification of the mcp_assistant tool-service gateway.

Text is modelled as `List Char` so that every operation of the embedded
code is executable and kernel-reducible.  Each definition mirrors one
function of the Python source (file and symbol named in its doc comment).
-/

set_option maxRecDepth 8000

namespace McpGateway

/-- Text, modelled as a list of characters. -/
abbrev Str := List Char

/-- Coerce a Lean string literal to the character-list model. -/
def str (s : String) : Str := s.data

/-! ## SSE wire format

`backend/app/api/chat.py` and `backend/app/mcp/routes.py` emit SSE lines
built with Python `json.dumps` on one-key dictionaries, e.g.
`f"data: {json.dumps({'content': chunk})}\n\n"`. -/

/-- Escaping of one character inside a JSON string, as `json.dumps` does for
the characters that occur here (quote, backslash and the common control
characters; `json.dumps` additionally `\uXXXX`-escapes other control and
non-ASCII characters, which no claim depends on). -/
def jsonEscapeChar (c : Char) : Str :=
  if c = '"' then ['\\', '"']
  else if c = '\\' then ['\\', '\\']
  else if c = '\n' then ['\\', 'n']
  else if c = '\r' then ['\\', 'r']
  else if c = '\t' then ['\\', 't']
  else [c]

/-- A JSON string literal: `"` + escaped characters + `"`. -/
def jsonString (s : Str) : Str := '"' :: (s.flatMap jsonEscapeChar) ++ ['"']

/-- The SSE line `data: {"content": <json>}\n\n`
(`json.dumps({"content": chunk})` renders as `{"content": "…"}`). -/
def contentLine (s : Str) : Str :=
  str "data: \x7b\"content\": " ++ jsonString s ++ str "\x7d\n\n"

/-- The SSE line `data: {"error": <json>}\n\n`. -/
def errorLine (s : Str) : Str :=
  str "data: \x7b\"error\": " ++ jsonString s ++ str "\x7d\n\n"

/-- The SSE terminal marker `data: [DONE]\n\n`. -/
def doneLine : Str := str "data: [DONE]\n\n"

/-! ## Stream generators (claim C1)

`generate_chat_message_stream` (`backend/app/api/chat.py:150-169`) and
`generate_chat_stream` (`backend/app/api/chat.py:281-300`) iterate an
async source, re-yield its chunks unchanged, then yield `data: [DONE]`;
when the source raises, they yield one `data: {"error": …}` line and then
`data: [DONE]`.  A source is observed by such a generator as the list of
chunks it yielded before it either completed normally (`failure = none`)
or raised an exception with message `e` (`failure = some e`). -/

structure StreamSource where
  chunks : List Str
  failure : Option Str

/-- `generate_chat_message_stream` (`backend/app/api/chat.py:150-169`):
re-yields each chunk of `chat_service.stream_message`, then `[DONE]`;
on exception, one error line then `[DONE]`. -/
def generate_chat_message_stream (src : StreamSource) : List Str :=
  match src.failure with
  | none => src.chunks ++ [doneLine]
  | some e => src.chunks ++ [errorLine e, doneLine]

/-- `generate_chat_stream` (`backend/app/api/chat.py:281-300`): same shape
over `chat_service.stream_chat_completion`. -/
def generate_chat_stream (src : StreamSource) : List Str :=
  match src.failure with
  | none => src.chunks ++ [doneLine]
  | some e => src.chunks ++ [errorLine e, doneLine]

/-! ### Text cleaning used by the MCP streaming route

`stream_chat.generate` (`backend/app/mcp/routes.py:180-248`) additionally
cleans each extracted chunk (think-tag removal, `'/n' -> '\n'`) and skips
empty results before wrapping them in content lines. -/

/-- Fuel-driven worker for Python `s.split(pattern)` on a non-empty
pattern: scan left to right, cutting at each non-overlapping occurrence.
Fuel `s.length` suffices since every step consumes at least one character;
the `pat ≠ []` guard only rules out the (never used) empty pattern. -/
def splitSeqGo (pat : Str) : Nat → Str → Str → List Str
  | 0, rem, acc => [acc.reverse ++ rem]
  | fuel + 1, rem, acc =>
    match rem with
    | [] => [acc.reverse]
    | c :: rest =>
      if pat.isPrefixOf (c :: rest) ∧ pat ≠ [] then
        acc.reverse :: splitSeqGo pat fuel (List.drop pat.length (c :: rest)) []
      else
        splitSeqGo pat fuel rest (c :: acc)

/-- Python `s.split(pat)` for a non-empty pattern `pat`. -/
def pySplitSub (pat s : Str) : List Str := splitSeqGo pat s.length s []

/-- The text after the first occurrence of `pat`, if any
(Python `s.split(pat, 1)[1]`, guarded by `pat in s`). -/
def afterFirst (pat : Str) : Str → Option Str
  | [] => none
  | c :: rest =>
    if pat.isPrefixOf (c :: rest) then some (List.drop pat.length (c :: rest))
    else afterFirst pat rest

/-- Python `pat in s` (substring containment). -/
def containsSeq (pat s : Str) : Bool := (afterFirst pat s).isSome

/-- Think-tag removal of `stream_chat.generate`
(`backend/app/mcp/routes.py:229-235`): split on `<think>`; in every part
but the first, drop through the first `</think>` when present; re-join. -/
def stripThink (s : Str) : Str :=
  if containsSeq (str "<think>") s then
    match pySplitSub (str "<think>") s with
    | [] => []
    | p0 :: rest =>
      p0 ++ (rest.map (fun p =>
        match afterFirst (str "</think>") p with
        | some t => t
        | none => p)).flatten
  else s

/-- Fuel-driven worker for Python `s.replace(pat, rep)` (non-empty `pat`). -/
def replaceSeqGo (pat rep : Str) : Nat → Str → Str
  | 0, rem => rem
  | fuel + 1, rem =>
    match rem with
    | [] => []
    | c :: rest =>
      if pat.isPrefixOf (c :: rest) ∧ pat ≠ [] then
        rep ++ replaceSeqGo pat rep fuel (List.drop pat.length (c :: rest))
      else
        c :: replaceSeqGo pat rep fuel rest

/-- Python `s.replace(pat, rep)` for a non-empty pattern. -/
def pyReplace (pat rep s : Str) : Str := replaceSeqGo pat rep s.length s

/-- Per-chunk cleaning of `stream_chat.generate`
(`backend/app/mcp/routes.py:226-238`): strip think tags, then
`replace('/n', '\n')`. -/
def cleanChunk (s : Str) : Str := pyReplace (str "/n") (str "\n") (stripThink s)

/-- `stream_chat.generate` (`backend/app/mcp/routes.py:180-248`): for each
extracted chunk text, clean it and, when non-empty, yield a content line;
then `[DONE]`; on exception, one error line then `[DONE]`.  `src.chunks`
are the chunk texts extracted from the agent stream before completion or
failure. -/
def mcp_routes_stream_generate (src : StreamSource) : List Str :=
  let lines := src.chunks.filterMap (fun r =>
    let c := cleanChunk r
    if c = [] then none else some (contentLine c))
  match src.failure with
  | none => lines ++ [doneLine]
  | some e => lines ++ [errorLine e, doneLine]

/-! ## Simulated streaming of a single blob (claim C3)

`ChatService._mcp_stream_chat_completion`
(`backend/app/services/chat_service.py:993-1075`) takes the full agent
answer, splits it into sentences with `re.split(r'(?<=[.!?])\s+', text)`
(falling back to `text.split(" ")` when that yields at most one piece),
regroups with `chunk_size = 1`, and yields one `data: {"content": …}`
line per group. -/

/-- The sentence-final characters of the regex class `[.!?]`. -/
def isSentenceEnd (c : Char) : Bool := c = '.' || c = '!' || c = '?'

/-- The whitespace characters matched by the regex class `\s` (the ASCII
ones; Python also matches some further Unicode whitespace, on which no
claim depends). -/
def isPySpace (c : Char) : Bool :=
  c = ' ' || c = '\t' || c = '\n' || c = '\r' ||
  c = Char.ofNat 11 || c = Char.ofNat 12

/-- Left-to-right scan implementing `re.split(r'(?<=[.!?])\s+', s)`:
a match begins where the previous character is in `[.!?]` and the current
character is whitespace, and consumes the maximal whitespace run
(`skipping = true` while inside a consumed run; `prevEnd` records whether
the previously consumed character was in `[.!?]`; `acc` holds the current
segment reversed). -/
def sentSplitGo (skipping prevEnd : Bool) : Str → Str → List Str
  | [], acc => [acc.reverse]
  | c :: rest, acc =>
    if skipping then
      if isPySpace c then sentSplitGo true false rest acc
      else sentSplitGo false (isSentenceEnd c) rest (c :: acc)
    else
      if prevEnd && isPySpace c then
        acc.reverse :: sentSplitGo true false rest []
      else sentSplitGo false (isSentenceEnd c) rest (c :: acc)

/-- `re.split(r'(?<=[.!?])\s+', s)` (`chat_service.py:1044`). -/
def sentSplit (s : Str) : List Str := sentSplitGo false false s []

/-- Worker for Python `s.split(sep)` on a single-character separator,
keeping empty pieces: returns the first piece and the remaining pieces. -/
def pySplitCharAux (sep : Char) : Str → Str × List Str
  | [] => ([], [])
  | c :: rest =>
    let (s, ss) := pySplitCharAux sep rest
    if c = sep then ([], s :: ss) else (c :: s, ss)

/-- Python `s.split(sep)` for a one-character separator
(`full_content.split(" ")`, `chat_service.py:1047`). -/
def pySplitChar (sep : Char) (s : Str) : List Str :=
  (pySplitCharAux sep s).1 :: (pySplitCharAux sep s).2

/-- Python `sep.join(parts)`. -/
def joinWith (sep : Str) : List Str → Str
  | [] => []
  | [x] => x
  | x :: y :: rest => x ++ sep ++ joinWith sep (y :: rest)

/-- One iteration of the regrouping loop (`chat_service.py:1052-1058`)
with the literal `chunk_size = 1`: `end = min(i + 1, len(chunks))`; when
the first piece is empty the code joins `chunks[i+1:end]` (always empty
for this chunk size), otherwise `chunks[i:end]`, with `" ".join`. -/
def combineStep (chunks : List Str) (i : Nat) : Str :=
  let e := min (i + 1) chunks.length
  if chunks.headD [] = [] then joinWith [' '] ((chunks.take e).drop (i + 1))
  else joinWith [' '] ((chunks.take e).drop i)

/-- The content chunks `_mcp_stream_chat_completion` emits for a full
answer `full` (`chat_service.py:1042-1066`): the sentence split, or the
word split when the sentence split has at most one piece, regrouped by
`combineStep` over `range (len chunks)` with step `chunk_size = 1`. -/
def mcpStreamContents (full : Str) : List Str :=
  let schunks := sentSplit full
  let chunks := if schunks.length ≤ 1 then pySplitChar ' ' full else schunks
  (List.range chunks.length).map (combineStep chunks)

/-- The agent outcome `_mcp_stream_chat_completion` reacts to: either the
inner completion reported an error, or it produced the full answer text
(extracted from `choices[0].message.content` or `content`). -/
inductive AgentResponse where
  | errorResp (e : Str)
  | contentResp (full : Str)

/-- `ChatService._mcp_stream_chat_completion`
(`backend/app/services/chat_service.py:1014-1066`): on an error response,
yield one error line and return; on an empty answer, yield one empty
content line and return; otherwise yield one content line per chunk.
(No `[DONE]` is emitted here; the API generator appends it.) -/
def mcp_stream_chat_completion (resp : AgentResponse) : List Str :=
  match resp with
  | .errorResp e => [errorLine e]
  | .contentResp full =>
    if full = [] then [contentLine []]
    else (mcpStreamContents full).map contentLine

/-- The full pipeline of claim C3: the simulated-streaming normalizer
consumed by `generate_chat_stream` (`backend/app/api/chat.py:281-300`),
which appends the terminal marker. -/
def mcpStreamPipeline (resp : AgentResponse) : List Str :=
  generate_chat_stream ⟨mcp_stream_chat_completion resp, none⟩

/-! ## Service connector and manager (claims C2, C5, C6, C8, C9)

`backend/app/mcp_adapters/connector.py` and
`backend/app/mcp_adapters/manager.py`. -/

/-- A discovered tool, as stored on a connector (`connector.tools`). -/
structure MCPTool where
  name : Str
  deriving DecidableEq

/-- Python `str.lower()` (ASCII case mapping; Python additionally lowers
non-ASCII letters, on which no claim depends). -/
def pyLower (s : Str) : Str := s.map Char.toLower

/-- `MCPServiceConnector.load_tools`
(`backend/app/mcp_adapters/connector.py:228-250`): after discovery, each
tool is renamed in place with
`tool.name = f"{self.service_name.lower()}_{tool.name}"`. -/
def load_tools_rename (service_name : Str) (raw : List MCPTool) : List MCPTool :=
  raw.map (fun t => { t with name := pyLower service_name ++ '_' :: t.name })

/-- Observable state of the child process spawned by a stdio connector. -/
inductive ProcState where
  | running
  | exited (code : Int)
  deriving DecidableEq

/-- What the environment does when `connect` spawns the child process. -/
inductive SpawnOutcome where
  | spawnError
  | immediateExit (code : Int)
  | started
  deriving DecidableEq

/-- What the environment does during the `ClientSession.initialize`
handshake awaited with `asyncio.wait_for(…, timeout=10.0)`. -/
inductive HandshakeOutcome where
  | ok
  | timeout
  | raised (msg : Str)
  deriving DecidableEq

/-- Environment of one `connect()` call on a stdio connector: spawn
outcome, handshake outcome, and the tool list served on discovery
(`load_mcp_tools` either returns the raw tools or raises, in which case
`load_tools` swallows the exception and leaves `self.tools` unchanged). -/
structure ConnectEnv where
  spawn : SpawnOutcome
  handshake : HandshakeOutcome
  discovery : Except Str (List MCPTool)

/-- Mutable fields of `MCPServiceConnector` touched by `connect`. -/
structure ConnectorState where
  initializedFlag : Bool
  process : Option ProcState
  tools : List MCPTool
  sessionOpen : Bool
  deriving DecidableEq

/-- A fresh connector (`MCPServiceConnector.__init__`,
`connector.py:22-37`). -/
def freshConnectorState : ConnectorState :=
  { initializedFlag := false, process := none, tools := [], sessionOpen := false }

/-- `MCPServiceConnector.connect` for a stdio service
(`backend/app/mcp_adapters/connector.py:39-226`):
returns `True` at once when already marked as connected; spawns the child
(`subprocess.Popen`); returns `False` when the spawn raises (line 170) or
the child has already exited (line 69); opens the session and awaits the
handshake: on `asyncio.TimeoutError` (line 157) or any other exception
(line 165) it logs and returns `False` — the spawned process is *not*
terminated on these paths (the cleanup at lines 220-225 runs only for
exceptions reaching the outermost handler, which these `return False`
statements bypass); on success it runs `load_tools` (whose own failure is
swallowed, leaving `self.tools` unchanged), sets `initialized = True` and
returns `True`. -/
def MCPServiceConnector.connect (service_name : Str) (st : ConnectorState)
    (env : ConnectEnv) : ConnectorState × Bool :=
  if st.initializedFlag then (st, true)
  else
    match env.spawn with
    | .spawnError => (st, false)
    | .immediateExit code => ({ st with process := some (.exited code) }, false)
    | .started =>
      let st1 := { st with process := some .running, sessionOpen := true }
      match env.handshake with
      | .timeout => (st1, false)
      | .raised _ => (st1, false)
      | .ok =>
        match env.discovery with
        | .error _ => ({ st1 with initializedFlag := true }, true)
        | .ok raw =>
          ({ st1 with tools := load_tools_rename service_name raw,
                      initializedFlag := true }, true)

/-- A registered connector as the manager sees it (name, its tools, and
whether it currently holds a live connection). -/
structure Connector where
  service_name : Str
  tools : List MCPTool
  connected : Bool
  deriving DecidableEq

/-- Ordered-dictionary lookup (Python `dict` access / `.get`). -/
def dictLookup (k : Str) : List (Str × α) → Option α
  | [] => none
  | (k', v) :: rest => if k' = k then some v else dictLookup k rest

/-- Ordered-dictionary assignment `d[k] = v` (CPython keeps the original
position of an existing key and appends a new one). -/
def dictInsert (k : Str) (v : α) : List (Str × α) → List (Str × α)
  | [] => [(k, v)]
  | (k', v') :: rest =>
    if k' = k then (k, v) :: rest else (k', v') :: dictInsert k v rest

/-- The `_connectors` dictionary of `MCPServiceManager`. -/
structure ManagerState where
  connectors : List (Str × Connector)
  deriving DecidableEq

/-- Events a manager operation may perform on connectors. -/
inductive MgrEvent where
  | disconnectConnector (c : Connector)
  | connectService (name : Str)
  | spawnProcess
  deriving DecidableEq

/-- `MCPServiceManager.register_service`
(`backend/app/mcp_adapters/manager.py:31-62`): builds a fresh
`MCPServiceConnector` and stores it under `service_name`, overwriting any
prior entry; it neither disconnects nor otherwise touches a previously
registered connector (the event trace of the call is empty), and returns
`True`. -/
def register_service (st : ManagerState) (service_name : Str) :
    ManagerState × Bool × List MgrEvent :=
  let connector : Connector :=
    { service_name := service_name, tools := [], connected := false }
  ({ connectors := dictInsert service_name connector st.connectors }, true, [])

/-- `MCPServiceManager.get_tool_by_name`
(`backend/app/mcp_adapters/manager.py:100-114`): scan the connectors in
registration order, and within each its tools in order; first match
wins. -/
def get_tool_by_name (st : ManagerState) (tool_name : Str) : Option MCPTool :=
  st.connectors.findSome? (fun p =>
    p.2.tools.find? (fun t => t.name = tool_name))

/-! ### Tool dispatch endpoint (claim C5)

`execute_tool` (`backend/app/services/tools_service.py:7-24`) and
`execute_tool_endpoint` (`backend/app/routes/tools.py:16-38`). -/

/-- Actions performed while dispatching a tool call. -/
inductive ToolAction where
  | lookupTool (name : Str)
  | runTool (t : MCPTool)
  | connectService (name : Str)
  | spawnProcess
  deriving DecidableEq

/-- The detail string of the `ValueError` raised on an unknown tool
(`tools_service.py:16`). -/
def notFoundDetail (name : Str) : Str :=
  str "Tool '" ++ name ++ str "' not found"

/-- `execute_tool` (`backend/app/services/tools_service.py:7-24`): look
the name up across all registered connectors; raise
`ValueError("Tool '…' not found")` when absent, otherwise run the tool.
The lookup is a pure scan of the stored tool lists — no connection is
opened and no process is spawned on either path. -/
def execute_tool (st : ManagerState) (tool_name : Str) :
    Except Str MCPTool × List ToolAction :=
  match get_tool_by_name st tool_name with
  | none => (.error (notFoundDetail tool_name), [.lookupTool tool_name])
  | some t => (.ok t, [.lookupTool tool_name, .runTool t])

/-- Python `tool_name[:-5]` applied when `tool_name.endswith(".call")`
(`backend/app/routes/tools.py:24-25`). -/
def stripCallSuffix (s : Str) : Str :=
  if (str ".call").isSuffixOf s then s.take (s.length - 5) else s

/-- Outcome of the endpoint: an HTTP error status with detail, or the
successfully invoked tool. -/
inductive EndpointResult where
  | httpError (status : Nat) (detail : Str)
  | ok (t : MCPTool)
  deriving DecidableEq

/-- `execute_tool_endpoint` (`backend/app/routes/tools.py:16-38`): strip a
trailing `.call`, call `execute_tool`, and map `ValueError` to HTTP 404
with the error's message as detail. -/
def execute_tool_endpoint (st : ManagerState) (tool_name : Str) :
    EndpointResult × List ToolAction :=
  let name := stripCallSuffix tool_name
  match execute_tool st name with
  | (.error e, acts) => (.httpError 404 e, acts)
  | (.ok t, acts) => (.ok t, acts)

/-! ### Singleton construction (claim C9)

`MCPServiceManager.__new__` / `__init__`
(`backend/app/mcp_adapters/manager.py:14-29`). -/

/-- The manager object's fields (`_initialized` and `_connectors`). -/
structure ManagerObj where
  initializedFlag : Bool
  connectors : List (Str × Connector)
  deriving DecidableEq

/-- Class-level state: the `_instance` class attribute, holding at most
one object, tagged with a heap identity, plus a fresh-identity counter. -/
structure ClassState where
  inst : Option (Nat × ManagerObj)
  nextId : Nat
  deriving DecidableEq

/-- `MCPServiceManager.__new__` (`manager.py:16-20`): when `_instance` is
unset (`if not cls._instance` — an object is always truthy, so this tests
`None`), allocate a fresh object with `_initialized = False` and store it;
either way return the stored instance. -/
def manager_new (g : ClassState) : ClassState × Nat :=
  match g.inst with
  | none =>
    ({ inst := some (g.nextId, { initializedFlag := false, connectors := [] }),
       nextId := g.nextId + 1 }, g.nextId)
  | some (i, _) => (g, i)

/-- `MCPServiceManager.__init__` (`manager.py:22-29`): return immediately
when `_initialized` is set; otherwise create the empty `_connectors`
dictionary and set `_initialized = True`.  It runs on the object `ref`
returned by `__new__`. -/
def manager_init (g : ClassState) (ref : Nat) : ClassState :=
  match g.inst with
  | some (i, o) =>
    if i = ref then
      if o.initializedFlag then g
      else { g with inst := some (i, { initializedFlag := true, connectors := [] }) }
    else g
  | none => g

/-- The Python expression `MCPServiceManager()`: `__new__` then `__init__`
on its result; returns the (identity of the) constructed instance. -/
def manager_construct (g : ClassState) : ClassState × Nat :=
  let (g1, r) := manager_new g
  (manager_init g1 r, r)

/-- Registering a service through a held reference: mutates the instance's
connector dictionary exactly when the reference denotes it (the effect of
`register_service` seen at class level). -/
def register_via (g : ClassState) (ref : Nat) (service_name : Str) : ClassState :=
  match g.inst with
  | some (i, o) =>
    if i = ref then
      { g with inst := some (i,
          { o with connectors :=
              (register_service { connectors := o.connectors } service_name).1.connectors }) }
    else g
  | none => g

/-- Reading the connector dictionary through a held reference. -/
def connectors_via (g : ClassState) (ref : Nat) : Option (List (Str × Connector)) :=
  match g.inst with
  | some (i, o) => if i = ref then some o.connectors else none
  | none => none

/-! ## MCPClient tool invocation (claims C4, C10)

`backend/app/services/mcp_client.py:85-236`. -/

/-- JSON-like Python values as found in the tool configuration file. -/
inductive PyVal where
  | str (s : Str)
  | int (n : Int)
  | bool (b : Bool)
  | list (xs : List PyVal)
  | dict (kvs : List (Str × PyVal))
  | none

/-- Python truthiness of a configuration value (`if not url:`). -/
def pyTruthy : PyVal → Bool
  | .str s => s ≠ []
  | .int n => n ≠ 0
  | .bool b => b
  | .list xs => !xs.isEmpty
  | .dict kvs => !kvs.isEmpty
  | .none => false

/-- Python truthiness of `d.get(k)` (missing key gives falsy `None`). -/
def pyTruthyOpt : Option PyVal → Bool
  | Option.none => false
  | some v => pyTruthy v

/-- Decimal rendering of a natural number. -/
def natToDec (n : Nat) : Str := Nat.toDigits 10 n

/-- The rendering of a configuration value inside an f-string (`str()`;
for composite values the exact Python rendering is richer, but no claim
depends on it). -/
def pyStrOf : PyVal → Str
  | .str s => s
  | .int n => if n < 0 then '-' :: natToDec n.natAbs else natToDec n.natAbs
  | .bool b => if b then str "True" else str "False"
  | .list _ => str "[...]"
  | .dict _ => str "\x7b...\x7d"
  | .none => str "None"

/-- `str()` of `d.get(k)` (`None` when the key is missing). -/
def pyStrOfOpt : Option PyVal → Str
  | Option.none => str "None"
  | some v => pyStrOf v

/-- Exceptions `invoke_tool` can raise past its boundary. -/
inductive PyExc where
  | valueError (msg : Str)
  | keyError (k : Str)
  | typeError
  deriving DecidableEq

/-- `str(e)` for the exceptions above (`KeyError` renders as the quoted
key). -/
def pyExcMsg : PyExc → Str
  | .valueError m => m
  | .keyError k => '\'' :: k ++ ['\'']
  | .typeError => str "TypeError"

/-- The parse of one response line from a stdio tool
(`json.loads(response_text)` then `.get("result", "")`/`.get("error")`;
a non-string `result` is returned as its rendering, which no claim
depends on). -/
inductive StdioResponse where
  | notJson (raw : Str)
  | jsonObj (result : Str) (error : Option Str)

/-- Environment of one attempt of `_invoke_stdio_tool`: what happens if a
spawn is needed, whether the cached process's stdin is closing, whether
writing the query raises, and the response (`none` models the 10-second
`asyncio.TimeoutError`). -/
structure AttemptEnv where
  spawn : Except Str Unit
  stdinClosing : Bool
  writeError : Option Str
  response : Option StdioResponse

/-- Process-level events performed by the client. -/
inductive ToolEvent where
  | spawnProc (pid : Nat)
  | terminateProc (pid : Nat)
  deriving DecidableEq

/-- The `self.processes` dictionary of `MCPClient`, with a counter
providing fresh process identities. -/
structure ClientState where
  processes : List (Str × Nat)
  nextPid : Nat
  deriving DecidableEq

/-- Outcome of `invoke_tool`: a returned string, a raised exception, or
out of modelled attempts (the unbounded restart recursion of the source
is cut off when the supplied attempt list is exhausted). -/
inductive StdioOut where
  | result (s : Str)
  | raised (e : PyExc)
  | outOfModel

/-- The timeout result string (`mcp_client.py:190`). -/
def timeoutMsg (tool_id : Str) : Str :=
  str "Error: Tool '" ++ tool_id ++ str "' timed out after 10 seconds"

/-- `MCPClient._invoke_stdio_tool` (`backend/app/services/mcp_client.py:109-194`).
Per attempt: reuse the cached process or build the command
(`config["command"]` — `KeyError` when absent, raised before the `try`
and so escaping the first frame) and spawn it (spawn failure returns
`"Error: Could not start tool process: …"`); if stdin is closing,
terminate the process, delete it from the dictionary and recurse (the
recursive call sits inside this frame's `try`, so an exception it raises
becomes `"Error invoking tool: …"` here); a write error returns
`"Error invoking tool: …"`; a response timeout terminates the process,
deletes it from the dictionary and returns the timeout message; a
non-JSON line returns `"Error parsing tool response: …"`; a truthy
`error` member returns `"Error: …"`; otherwise the `result` member is
returned. -/
def invoke_stdio_tool (tool_id : Str) (cfg : List (Str × PyVal)) :
    List AttemptEnv → ClientState → ClientState × List ToolEvent × StdioOut
  | [], st => (st, [], .outOfModel)
  | env :: rest, st =>
    let acquired : (List ToolEvent × StdioOut) ⊕ (ClientState × Nat × List ToolEvent) :=
      match dictLookup tool_id st.processes with
      | some pid => .inr (st, pid, [])
      | Option.none =>
        match dictLookup (str "command") cfg with
        | Option.none => .inl ([], .raised (.keyError (str "command")))
        | some _ =>
          match env.spawn with
          | .error e =>
            .inl ([], .result (str "Error: Could not start tool process: " ++ e))
          | .ok _ =>
            .inr ({ processes := dictInsert tool_id st.nextPid st.processes,
                    nextPid := st.nextPid + 1 }, st.nextPid, [.spawnProc st.nextPid])
    match acquired with
    | .inl (evs, out) => (st, evs, out)
    | .inr (st1, pid, evs0) =>
      if env.stdinClosing then
        let st2 : ClientState :=
          { st1 with processes := st1.processes.filter (fun p => ¬ p.1 = tool_id) }
        let r := invoke_stdio_tool tool_id cfg rest st2
        let out : StdioOut :=
          match r.2.2 with
          | .raised e => .result (str "Error invoking tool: " ++ pyExcMsg e)
          | o => o
        (r.1, evs0 ++ [.terminateProc pid] ++ r.2.1, out)
      else
        match env.writeError with
        | some e => (st1, evs0, .result (str "Error invoking tool: " ++ e))
        | Option.none =>
          match env.response with
          | Option.none =>
            ({ st1 with processes := st1.processes.filter (fun p => ¬ p.1 = tool_id) },
             evs0 ++ [.terminateProc pid], .result (timeoutMsg tool_id))
          | some (.notJson raw) =>
            (st1, evs0, .result (str "Error parsing tool response: " ++ raw))
          | some (.jsonObj result error) =>
            match error with
            | some e =>
              if e = [] then (st1, evs0, .result result)
              else (st1, evs0, .result (str "Error: " ++ e))
            | Option.none => (st1, evs0, .result result)

/-- Environment of `_invoke_http_tool`: the HTTP client raises, or a
response arrives with a status code and (relevant only at 200) the
outcome of `response.json()` plus the `result`/`error` members. -/
inductive HttpOutcome where
  | clientRaised (msg : Str)
  | response (status : Nat) (parse : Except Str (Str × Option Str))

/-- `MCPClient._invoke_http_tool` (`backend/app/services/mcp_client.py:196-236`):
`url = config.get("url"); if not url: raise ValueError(...)` — this raise
sits before the `try` and escapes; inside the `try`, a client exception
or a `response.json()` failure returns `"Error invoking tool: …"`, a
non-200 status returns `"Error: HTTP status …"`, a truthy `error` member
returns `"Error: …"`, and otherwise the `result` member is returned. -/
def invoke_http_tool (tool_id : Str) (cfg : List (Str × PyVal))
    (env : HttpOutcome) : StdioOut :=
  let url := dictLookup (str "url") cfg
  if pyTruthyOpt url = false then
    .raised (.valueError
      (str "Missing 'url' in config for HTTP tool '" ++ tool_id ++ str "'"))
  else
    match env with
    | .clientRaised e => .result (str "Error invoking tool: " ++ e)
    | .response status parse =>
      if status ≠ 200 then .result (str "Error: HTTP status " ++ natToDec status)
      else
        match parse with
        | .error e => .result (str "Error invoking tool: " ++ e)
        | .ok (result, error) =>
          match error with
          | some e =>
            if e = [] then .result result else .result (str "Error: " ++ e)
          | Option.none => .result result

/-- `MCPClient.invoke_tool` (`backend/app/services/mcp_client.py:85-107`):
raise `ValueError` when the tool id is not in the configuration; dispatch
on `config.get("transport")`, raising `ValueError` for any transport
other than `"stdio"` and `"http"`. -/
def invoke_tool (tools_config : List (Str × List (Str × PyVal))) (tool_id : Str)
    (attempts : List AttemptEnv) (http : HttpOutcome) (st : ClientState) :
    ClientState × List ToolEvent × StdioOut :=
  match dictLookup tool_id tools_config with
  | Option.none =>
    (st, [], .raised (.valueError
      (str "Tool '" ++ tool_id ++ str "' not found in config")))
  | some cfg =>
    let transport := dictLookup (str "transport") cfg
    match transport with
    | some (.str t) =>
      if t = str "stdio" then invoke_stdio_tool tool_id cfg attempts st
      else if t = str "http" then (st, [], invoke_http_tool tool_id cfg http)
      else
        (st, [], .raised (.valueError
          (str "Unsupported transport '" ++ t ++ str "' for tool '" ++
            tool_id ++ str "'")))
    | other =>
      (st, [], .raised (.valueError
        (str "Unsupported transport '" ++ pyStrOfOpt other ++ str "' for tool '"
          ++ tool_id ++ str "'")))

/-! ## Configuration loading (claim C7)

The validation loop of `initialize_mcp`
(`backend/app/mcp/service.py:107-137`) and its enclosing handler
(`service.py:192-199`). -/

/-- POSIX `os.path.isabs` for the paths occurring here. -/
def isAbsPath (s : Str) : Bool := s.take 1 = ['/']

/-- POSIX `os.path.join(cwd, p)` for a relative `p` and a `cwd` without a
trailing slash. -/
def pathJoin (cwd p : Str) : Str := cwd ++ '/' :: p

/-- One entry of the `filtered_config` dictionary built by
`initialize_mcp` (`service.py:124-128`). -/
structure FilteredEntry where
  command : PyVal
  args : List PyVal
  transport : PyVal

/-- One iteration of the validation loop (`service.py:109-136`): skip
(`.ok none`) entries that are not dictionaries, lack `"args"`, or whose
`"args"` is not a list; otherwise build the filtered entry with
`tool_config["command"]` and `tool_config["transport"]` — plain indexing,
so a missing key raises `KeyError` — and absolutize a relative first
argument (`os.path.isabs` on a non-string raises `TypeError`). -/
def filterEntry (cwd : Str) (tc : PyVal) : Except PyExc (Option FilteredEntry) :=
  match tc with
  | .dict kvs =>
    match dictLookup (str "args") kvs with
    | Option.none => .ok Option.none
    | some argsv =>
      match argsv with
      | .list args =>
        match dictLookup (str "command") kvs with
        | Option.none => .error (.keyError (str "command"))
        | some cmd =>
          match dictLookup (str "transport") kvs with
          | Option.none => .error (.keyError (str "transport"))
          | some tr =>
            match args with
            | [] => .ok (some ⟨cmd, [], tr⟩)
            | a0 :: restArgs =>
              match a0 with
              | .str p =>
                if isAbsPath p then .ok (some ⟨cmd, .str p :: restArgs, tr⟩)
                else .ok (some ⟨cmd, .str (pathJoin cwd p) :: restArgs, tr⟩)
              | _ => .error .typeError
      | _ => .ok Option.none
  | _ => .ok Option.none

/-- The whole validation loop: builds the filtered configuration in entry
order; the first exception aborts it. -/
def buildFilteredConfig (cwd : Str) :
    List (Str × PyVal) → Except PyExc (List (Str × FilteredEntry))
  | [] => .ok []
  | (name, tc) :: rest =>
    match filterEntry cwd tc with
    | .error e => .error e
    | .ok Option.none => buildFilteredConfig cwd rest
    | .ok (some fe) =>
      match buildFilteredConfig cwd rest with
      | .error e => .error e
      | .ok l => .ok ((name, fe) :: l)

/-- The service set `initialize_mcp` hands to `MultiServerMCPClient`
(`service.py:97-148, 192-199`): `none` when nothing is loaded — an empty
configuration aborts early (line 100), and any exception in the loop
reaches the outermost handler, which returns `False` with no entry
loaded. -/
def mcpInitLoadedServices (cwd : Str) (config : List (Str × PyVal)) :
    Option (List (Str × FilteredEntry)) :=
  match config with
  | [] => Option.none
  | _ =>
    match buildFilteredConfig cwd config with
    | .error _ => Option.none
    | .ok l => some l

/-- The explicit skip conditions of the validation loop
(`service.py:110-121`): the entry is a dictionary, has an `"args"` key,
and its `"args"` value is a list.  Entries failing these checks are
skipped with `continue`. -/
def passesChecks : PyVal → Bool
  | .dict kvs =>
    match dictLookup (str "args") kvs with
    | some (.list _) => true
    | _ => false
  | _ => false

/-- The further requirements an entry passing the explicit checks must
meet for the loop body not to raise: `"command"` and `"transport"` keys
present (they are read with plain indexing), and a string first argument
when `args` is non-empty (it is fed to `os.path.isabs`). -/
def hasRequiredKeys : PyVal → Bool
  | .dict kvs =>
    (dictLookup (str "command") kvs).isSome &&
    (dictLookup (str "transport") kvs).isSome &&
    (match dictLookup (str "args") kvs with
     | some (.list (a0 :: _)) =>
       (match a0 with
        | .str _ => true
        | _ => false)
     | _ => true)
  | _ => true

/-- The genuine tool results available in a run of `_invoke_stdio_tool`:
for each attempt whose response parses with a falsy `error` member, its
`result` member. -/
def attemptResults (attempts : List AttemptEnv) : List Str :=
  attempts.filterMap (fun a =>
    match a.response with
    | some (.jsonObj r e) =>
      match e with
      | some msg => if msg = [] then some r else Option.none
      | Option.none => some r
    | _ => Option.none)

/-- The genuine tool result of an HTTP call: a 200 response whose body
parses with a falsy `error` member yields its `result` member. -/
def httpSuccessResult : HttpOutcome → Option Str
  | .response status (.ok (r, Option.none)) =>
    if status = 200 then some r else Option.none
  | .response status (.ok (r, some e)) =>
    if status = 200 ∧ e = [] then some r else Option.none
  | _ => Option.none

/-! # Theorems -/

/-- A content line is never the terminal marker (their lengths differ). -/
theorem contentLine_ne_doneLine (s : Str) : contentLine s ≠ doneLine := by
  intro h
  have h2 := congrArg List.length h
  simp [contentLine, doneLine, jsonString, str, List.length_append] at h2

/-- An error line is never the terminal marker (their lengths differ). -/
theorem errorLine_ne_doneLine (s : Str) : errorLine s ≠ doneLine := by
  intro h
  have h2 := congrArg List.length h
  simp [errorLine, doneLine, jsonString, str, List.length_append] at h2

/-- Counting the final element of `l ++ [x, y]` when it occurs nowhere
else. -/
theorem count_append_pair {α : Type} [BEq α] [LawfulBEq α] (l : List α) (x y : α)
    (hl : y ∉ l) (hxy : x ≠ y) : (l ++ [x, y]).count y = 1 := by
  rw [List.count_append, List.count_eq_zero.mpr hl]
  have h1 : (x == y) = false := beq_eq_false_iff_ne.mpr hxy
  have h2 : (y == y) = true := beq_self_eq_true _
  rw [List.count_cons, List.count_cons, List.count_nil, h1, h2]
  simp

/-- Counting the final element of `l ++ [y]` when it occurs nowhere
else. -/
theorem count_append_single {α : Type} [BEq α] [LawfulBEq α] (l : List α) (y : α)
    (hl : y ∉ l) : (l ++ [y]).count y = 1 := by
  rw [List.count_append, List.count_eq_zero.mpr hl]
  have h2 : (y == y) = true := beq_self_eq_true _
  rw [List.count_cons, List.count_nil, h2]
  simp

/-- Every line the MCP routes generator produces ahead of the markers is a
content line. -/
theorem mem_routes_lines {src : StreamSource} {l : Str}
    (hl : l ∈ src.chunks.filterMap (fun r =>
      let c := cleanChunk r
      if c = [] then none else some (contentLine c))) :
    ∃ c, l = contentLine c := by
  rcases List.mem_filterMap.mp hl with ⟨r, _, hr⟩
  by_cases hc : cleanChunk r = [] <;> simp [hc] at hr
  exact ⟨cleanChunk r, hr.symm⟩

/-- C1: every SSE stream the gateway's generators emit ends with exactly
one terminal `data: [DONE]` marker; when the underlying source raises
mid-stream, exactly one error chunk carrying the failure message is
emitted, immediately followed by that single terminal marker.  Stated for
`generate_chat_message_stream` (`backend/app/api/chat.py:150-169`) and for
the `stream_chat` generator (`backend/app/mcp/routes.py:180-248`); the
hypothesis records that the upstream source does not itself yield the
terminal marker (the service layer only yields content/error lines). -/
theorem C1_stream_generators_always_terminate (src : StreamSource)
    (hnd : doneLine ∉ src.chunks) :
    ((generate_chat_message_stream src).getLast? = some doneLine ∧
      (generate_chat_message_stream src).count doneLine = 1 ∧
      ∀ e, src.failure = some e →
        generate_chat_message_stream src = src.chunks ++ [errorLine e, doneLine]) ∧
    ((mcp_routes_stream_generate src).getLast? = some doneLine ∧
      (mcp_routes_stream_generate src).count doneLine = 1 ∧
      ∀ e, src.failure = some e →
        ∃ ls, mcp_routes_stream_generate src = ls ++ [errorLine e, doneLine] ∧
          ∀ l ∈ ls, ∃ c, l = contentLine c) := by
  have hzero : src.chunks.count doneLine = 0 := List.count_eq_zero.mpr hnd
  have hlines :
      (src.chunks.filterMap (fun r =>
        let c := cleanChunk r
        if c = [] then none else some (contentLine c))).count doneLine = 0 := by
    refine List.count_eq_zero.mpr (fun hmem => ?_)
    rcases mem_routes_lines hmem with ⟨c, hc⟩
    exact contentLine_ne_doneLine c hc.symm
  constructor
  · refine ⟨?_, ?_, ?_⟩
    · cases hf : src.failure with
      | none => simp [generate_chat_message_stream, hf]
      | some e =>
        simp only [generate_chat_message_stream, hf]
        rw [show src.chunks ++ [errorLine e, doneLine]
            = (src.chunks ++ [errorLine e]) ++ [doneLine] by rw [List.append_assoc]; exact rfl]
        exact List.getLast?_concat _
    · cases hf : src.failure with
      | none =>
        simp only [generate_chat_message_stream, hf]
        exact count_append_single _ _ hnd
      | some e =>
        simp only [generate_chat_message_stream, hf]
        exact count_append_pair _ _ _ hnd (errorLine_ne_doneLine e)
    · intro e hf
      simp [generate_chat_message_stream, hf]
  · refine ⟨?_, ?_, ?_⟩
    · cases hf : src.failure with
      | none => simp [mcp_routes_stream_generate, hf]
      | some e =>
        simp only [mcp_routes_stream_generate, hf]
        rw [show ∀ ls : List Str, ls ++ [errorLine e, doneLine]
            = (ls ++ [errorLine e]) ++ [doneLine] from
          fun ls => by rw [List.append_assoc]; exact rfl]
        exact List.getLast?_concat _
    · cases hf : src.failure with
      | none =>
        simp only [mcp_routes_stream_generate, hf]
        refine count_append_single _ _ ?_
        exact fun hmem => absurd (mem_routes_lines hmem)
          (by rintro ⟨c, hc⟩; exact contentLine_ne_doneLine c hc.symm)
      | some e =>
        simp only [mcp_routes_stream_generate, hf]
        refine count_append_pair _ _ _ ?_ (errorLine_ne_doneLine e)
        exact fun hmem => absurd (mem_routes_lines hmem)
          (by rintro ⟨c, hc⟩; exact contentLine_ne_doneLine c hc.symm)
    · intro e hf
      refine ⟨src.chunks.filterMap (fun r =>
        let c := cleanChunk r
        if c = [] then none else some (contentLine c)), ?_, ?_⟩
      · simp [mcp_routes_stream_generate, hf]
      · exact fun l hl => mem_routes_lines hl

/-- Witness for C1 at a concrete source that yields one content chunk and
then raises. -/
theorem C1_stream_generators_always_terminate_witness :
    doneLine ∉ ([contentLine (str "hi")] : List Str) ∧
    (((generate_chat_message_stream ⟨[contentLine (str "hi")], some (str "boom")⟩).getLast?
        = some doneLine ∧
      (generate_chat_message_stream ⟨[contentLine (str "hi")], some (str "boom")⟩).count doneLine = 1 ∧
      ∀ e, (some (str "boom") : Option Str) = some e →
        generate_chat_message_stream ⟨[contentLine (str "hi")], some (str "boom")⟩
          = [contentLine (str "hi")] ++ [errorLine e, doneLine]) ∧
    ((mcp_routes_stream_generate ⟨[contentLine (str "hi")], some (str "boom")⟩).getLast?
        = some doneLine ∧
      (mcp_routes_stream_generate ⟨[contentLine (str "hi")], some (str "boom")⟩).count doneLine = 1 ∧
      ∀ e, (some (str "boom") : Option Str) = some e →
        ∃ ls, mcp_routes_stream_generate ⟨[contentLine (str "hi")], some (str "boom")⟩
            = ls ++ [errorLine e, doneLine] ∧
          ∀ l ∈ ls, ∃ c, l = contentLine c)) :=
  ⟨by decide,
   C1_stream_generators_always_terminate ⟨[contentLine (str "hi")], some (str "boom")⟩
     (by decide)⟩

/-! ## Claim C3 lemmas and theorems -/


theorem sentSplitGo_no_end (rest : Str) (acc : Str)
    (h : ∀ c ∈ rest, isSentenceEnd c = false) :
    sentSplitGo false false rest acc = [acc.reverse ++ rest] := by
  induction rest generalizing acc with
  | nil => simp [sentSplitGo]
  | cons c cs ih =>
    have hc : isSentenceEnd c = false := h c (List.mem_cons_self c cs)
    simp only [sentSplitGo, Bool.false_and, if_neg (by simp : ¬ (false = true)), hc]
    rw [ih (c :: acc) (fun d hd => h d (List.mem_cons_of_mem _ hd))]
    simp

theorem pySplitCharAux_no_sep (sep : Char) (w : Str) (h : sep ∉ w) :
    pySplitCharAux sep w = (w, []) := by
  induction w with
  | nil => simp [pySplitCharAux]
  | cons c cs ih =>
    have hc : ¬ c = sep := fun e => h (by simp [e])
    simp [pySplitCharAux, hc, ih (fun hm => h (List.mem_cons_of_mem _ hm))]

theorem pySplitCharAux_append (sep : Char) (w t : Str) (h : sep ∉ w) :
    pySplitCharAux sep (w ++ t)
      = (w ++ (pySplitCharAux sep t).1, (pySplitCharAux sep t).2) := by
  induction w with
  | nil => simp
  | cons c cs ih =>
    have hc : ¬ c = sep := fun e => h (by simp [e])
    simp [pySplitCharAux, hc, ih (fun hm => h (List.mem_cons_of_mem _ hm))]

theorem joinWith_cons_cons (sep : Str) (x y : Str) (rest : List Str) :
    joinWith sep (x :: y :: rest) = x ++ sep ++ joinWith sep (y :: rest) := rfl

theorem pySplitChar_joinWith (sep : Char) (ws : List Str) (hne : ws ≠ [])
    (h : ∀ w ∈ ws, sep ∉ w) : pySplitChar sep (joinWith [sep] ws) = ws := by
  induction ws with
  | nil => exact absurd rfl hne
  | cons w rest ih =>
    cases rest with
    | nil =>
      simp [joinWith, pySplitChar, pySplitCharAux_no_sep sep w (h w (by simp))]
    | cons y t =>
      have hw : sep ∉ w := h w (by simp)
      rw [joinWith_cons_cons]
      have : w ++ [sep] ++ joinWith [sep] (y :: t) = w ++ (sep :: joinWith [sep] (y :: t)) := by
        simp
      rw [this]
      have hrec := ih (by simp) (fun u hu => h u (List.mem_cons_of_mem _ hu))
      simp only [pySplitChar] at hrec ⊢
      rw [pySplitCharAux_append sep w _ hw]
      simp only [pySplitCharAux]
      rw [hrec]
      simp

theorem take_succ_drop {A : Type} (l : List A) (i : Nat) (h : i < l.length) :
    (l.take (i + 1)).drop i = [l.get ⟨i, h⟩] := by
  induction l generalizing i with
  | nil => simp at h
  | cons a as ih =>
    cases i with
    | zero => simp
    | succ j => simpa using ih j (by simpa using h)

theorem joinWith_single (sep : Str) (x : Str) : joinWith sep [x] = x := rfl

theorem combined_eq_self (l : List Str) (hh : ¬ l.headD [] = []) :
    (List.range l.length).map (combineStep l) = l := by
  apply List.ext_get
  · simp
  · intro n h1 h2
    simp only [List.getElem_map, List.getElem_range, List.get_eq_getElem]
    have hn : n < l.length := by simpa using h2
    simp only [combineStep, if_neg hh]
    have he : min (n + 1) l.length = n + 1 := by omega
    rw [he]
    have := take_succ_drop l n hn
    simp only [List.get_eq_getElem] at this
    rw [this, joinWith_single]

theorem mem_joinWith (sep : Str) (ws : List Str) (c : Char)
    (hc : c ∈ joinWith sep ws) : c ∈ sep ∨ ∃ w ∈ ws, c ∈ w := by
  induction ws with
  | nil => simp [joinWith] at hc
  | cons w rest ih =>
    cases rest with
    | nil => exact Or.inr ⟨w, by simp, by simpa [joinWith] using hc⟩
    | cons y t =>
      rw [joinWith_cons_cons] at hc
      rcases List.mem_append.mp hc with h1 | h2
      · rcases List.mem_append.mp h1 with h3 | h4
        · exact Or.inr ⟨w, by simp, h3⟩
        · exact Or.inl h4
      · rcases ih h2 with h5 | hex
        · exact Or.inl h5
        · rcases hex with ⟨u, hu, hcu⟩
          exact Or.inr ⟨u, List.mem_cons_of_mem _ hu, hcu⟩

theorem mcpStreamContents_words (w0 : Str) (rest : List Str)
    (h0 : ¬ w0 = [])
    (hw : ∀ w ∈ w0 :: rest, ∀ c ∈ w, isPySpace c = false ∧ isSentenceEnd c = false) :
    mcpStreamContents (joinWith [' '] (w0 :: rest)) = w0 :: rest := by
  have hnosent : ∀ c ∈ joinWith [' '] (w0 :: rest), isSentenceEnd c = false := by
    intro c hc
    rcases mem_joinWith _ _ _ hc with hsep | hex
    · simp at hsep
      subst hsep
      decide
    · rcases hex with ⟨w, hwmem, hcw⟩
      exact (hw w hwmem c hcw).2
  have hsplit : sentSplit (joinWith [' '] (w0 :: rest)) = [joinWith [' '] (w0 :: rest)] := by
    simpa [sentSplit] using sentSplitGo_no_end _ [] hnosent
  have hnospace : ∀ w ∈ w0 :: rest, ' ' ∉ w := by
    intro w hwmem hsp
    have := (hw w hwmem ' ' hsp).1
    simp [isPySpace] at this
  have hwords : pySplitChar ' ' (joinWith [' '] (w0 :: rest)) = w0 :: rest :=
    pySplitChar_joinWith ' ' _ (by simp) hnospace
  simp only [mcpStreamContents, hsplit, List.length_singleton, le_refl, if_pos, hwords]
  exact combined_eq_self _ (by simpa using h0)

theorem C3_counterexample_concatenation :
    mcpStreamContents (str "a b") = [str "a", str "b"] ∧
    (mcpStreamContents (str "a b")).flatten ≠ str "a b" ∧
    mcpStreamPipeline (.contentResp (str "a b"))
      = [contentLine (str "a"), contentLine (str "b"), doneLine] :=
  ⟨by decide, by decide, by decide⟩

theorem C3_simulated_streaming_amended (ws : List Str) (hne : ws ≠ [])
    (hnonempty : ∀ w ∈ ws, ¬ w = [])
    (hchars : ∀ w ∈ ws, ∀ c ∈ w, isPySpace c = false ∧ isSentenceEnd c = false) :
    mcpStreamContents (joinWith [' '] ws) = ws ∧
    mcpStreamPipeline (.contentResp (joinWith [' '] ws))
      = ws.map contentLine ++ [doneLine] ∧
    (mcpStreamPipeline (.contentResp (joinWith [' '] ws))).count doneLine = 1 ∧
    joinWith [' '] (mcpStreamContents (joinWith [' '] ws)) = joinWith [' '] ws := by
  obtain ⟨w0, rest, rfl⟩ : ∃ w0 rest, ws = w0 :: rest := by
    cases ws with
    | nil => exact absurd rfl hne
    | cons a b => exact ⟨a, b, rfl⟩
  have h0 : ¬ w0 = [] := hnonempty w0 (by simp)
  have hcontents := mcpStreamContents_words w0 rest h0 hchars
  have hsne : ¬ joinWith [' '] (w0 :: rest) = [] := by
    cases rest with
    | nil => simpa [joinWith] using h0
    | cons y t => simp [joinWith_cons_cons]
  have hpipe : mcpStreamPipeline (.contentResp (joinWith [' '] (w0 :: rest)))
      = (w0 :: rest).map contentLine ++ [doneLine] := by
    simp only [mcpStreamPipeline, mcp_stream_chat_completion, if_neg hsne, hcontents,
      generate_chat_stream]
  refine ⟨hcontents, hpipe, ?_, by rw [hcontents]⟩
  rw [hpipe]
  refine count_append_single _ _ ?_
  intro hmem
  rcases List.mem_map.mp hmem with ⟨c, _, hc⟩
  exact contentLine_ne_doneLine c hc

theorem C3_simulated_streaming_amended_witness :
    (([str "ab", str "cd"] : List Str) ≠ [] ∧
      (∀ w ∈ ([str "ab", str "cd"] : List Str), ¬ w = []) ∧
      (∀ w ∈ ([str "ab", str "cd"] : List Str), ∀ c ∈ w,
        isPySpace c = false ∧ isSentenceEnd c = false)) ∧
    (mcpStreamContents (joinWith [' '] [str "ab", str "cd"]) = [str "ab", str "cd"] ∧
      mcpStreamPipeline (.contentResp (joinWith [' '] [str "ab", str "cd"]))
        = ([str "ab", str "cd"] : List Str).map contentLine ++ [doneLine] ∧
      (mcpStreamPipeline (.contentResp (joinWith [' '] [str "ab", str "cd"]))).count doneLine = 1 ∧
      joinWith [' '] (mcpStreamContents (joinWith [' '] [str "ab", str "cd"]))
        = joinWith [' '] [str "ab", str "cd"]) :=
  ⟨⟨by decide, by decide, by decide⟩,
   C3_simulated_streaming_amended [str "ab", str "cd"] (by decide) (by decide) (by decide)⟩


/-! ## Claims C2, C5, C6 -/


/-- C2 (code bug, evaluated at the failing input): a fresh stdio connector
whose child spawns but whose initialize handshake times out: `connect`
returns `False` without raising and leaves `initialized` unset, but the
spawned child process is still running when the call returns — the
timeout branch (`connector.py:157-164`) returns without terminating it,
so an orphaned child remains. -/
theorem C2_handshake_timeout_leaves_child_running :
    MCPServiceConnector.connect (str "calc") freshConnectorState
        { spawn := .started, handshake := .timeout, discovery := .ok [] }
      = ({ initializedFlag := false, process := some .running, tools := [],
           sessionOpen := true }, false) := rfl

/-- An absent tool name makes the registry scan come up empty. -/
theorem get_tool_by_name_eq_none (st : ManagerState) (n : Str)
    (hn : ∀ p ∈ st.connectors, ∀ t ∈ p.2.tools, ¬ t.name = n) :
    get_tool_by_name st n = none := by
  simp only [get_tool_by_name]
  rw [List.findSome?_eq_none_iff]
  intro p hp
  rw [List.find?_eq_none]
  intro t ht
  simp [hn p hp t ht]

/-- Stripping `.call` from a name that ends in it. -/
theorem stripCallSuffix_append (pre : Str) :
    stripCallSuffix (pre ++ str ".call") = pre := by
  have hsuf : (str ".call").isSuffixOf (pre ++ str ".call") = true := by
    rw [List.isSuffixOf_iff_suffix]
    exact List.suffix_append _ _
  simp only [stripCallSuffix, hsuf, if_pos]
  have hlen : (pre ++ str ".call").length - 5 = pre.length := by
    simp [str, List.length_append]
  rw [hlen, List.take_left]

/-- C5: a requested tool name has any trailing `.call` stripped before
lookup; when the resulting name matches no tool advertised by any
registered connector, the endpoint fails with HTTP 404 and the
`Tool '…' not found` detail, and the dispatch performs no connection
attempt and no process spawn. -/
theorem C5_unknown_tool_fails_404 (st : ManagerState) (raw : Str)
    (hn : ∀ p ∈ st.connectors, ∀ t ∈ p.2.tools, ¬ t.name = stripCallSuffix raw) :
    (execute_tool_endpoint st raw).1
        = .httpError 404 (notFoundDetail (stripCallSuffix raw)) ∧
    (∀ a ∈ (execute_tool_endpoint st raw).2,
        (∀ s, ¬ a = ToolAction.connectService s) ∧ ¬ a = ToolAction.spawnProcess) ∧
    (∀ pre, raw = pre ++ str ".call" → stripCallSuffix raw = pre) := by
  have hnone := get_tool_by_name_eq_none st _ hn
  refine ⟨?_, ?_, ?_⟩
  · simp [execute_tool_endpoint, execute_tool, hnone]
  · simp only [execute_tool_endpoint, execute_tool, hnone]
    intro a ha
    simp at ha
    subst ha
    exact ⟨fun s => by simp, by simp⟩
  · intro pre hpre
    subst hpre
    exact stripCallSuffix_append pre

/-- Witness for C5: a registry advertising only `calc_add`, queried for
`nosuch.call`. -/
theorem C5_unknown_tool_fails_404_witness :
    (∀ p ∈ (⟨[(str "calc",
          { service_name := str "calc", tools := [{ name := str "calc_add" }],
            connected := true })]⟩ : ManagerState).connectors,
       ∀ t ∈ p.2.tools, ¬ t.name = stripCallSuffix (str "nosuch.call")) ∧
    ((execute_tool_endpoint (⟨[(str "calc",
          { service_name := str "calc", tools := [{ name := str "calc_add" }],
            connected := true })]⟩ : ManagerState) (str "nosuch.call")).1
        = .httpError 404 (notFoundDetail (stripCallSuffix (str "nosuch.call"))) ∧
      (∀ a ∈ (execute_tool_endpoint (⟨[(str "calc",
          { service_name := str "calc", tools := [{ name := str "calc_add" }],
            connected := true })]⟩ : ManagerState) (str "nosuch.call")).2,
        (∀ s, ¬ a = ToolAction.connectService s) ∧ ¬ a = ToolAction.spawnProcess) ∧
      (∀ pre, str "nosuch.call" = pre ++ str ".call" →
        stripCallSuffix (str "nosuch.call") = pre)) :=
  ⟨by decide,
   C5_unknown_tool_fails_404 (⟨[(str "calc",
      { service_name := str "calc", tools := [{ name := str "calc_add" }],
        connected := true })]⟩ : ManagerState) (str "nosuch.call") (by decide)⟩

/-- Splitting at the first underscore is unambiguous for underscore-free
prefixes. -/
theorem underscore_split_inj (a : Str) :
    ∀ b x y : Str, '_' ∉ a → '_' ∉ b →
      a ++ '_' :: x = b ++ '_' :: y → a = b ∧ x = y := by
  induction a with
  | nil =>
    intro b x y _ hb h
    cases b with
    | nil => simpa using h
    | cons d b2 =>
      simp only [List.nil_append, List.cons_append, List.cons.injEq] at h
      exact absurd (by simp [← h.1]) hb
  | cons c a2 ih =>
    intro b x y ha hb h
    cases b with
    | nil =>
      simp only [List.nil_append, List.cons_append, List.cons.injEq] at h
      exact absurd (by simp [h.1]) ha
    | cons d b2 =>
      simp only [List.cons_append, List.cons.injEq] at h
      obtain ⟨h1, h2⟩ := h
      obtain ⟨h3, h4⟩ := ih b2 x y (fun hm => ha (List.mem_cons_of_mem _ hm))
        (fun hm => hb (List.mem_cons_of_mem _ hm)) h2
      exact ⟨by rw [h1, h3], h4⟩

/-- C6 counterexample: the connector stores tools under the *lowercased*
service name — registering tool `add` on service `Math` stores `math_add`,
not `Math_add`; moreover even distinct service names can collide after
prefixing when they contain underscores. -/
theorem C6_counterexample_lowercased :
    (load_tools_rename (str "Math") [{ name := str "add" }]).map MCPTool.name
        = [str "math_add"] ∧
    ¬ (load_tools_rename (str "Math") [{ name := str "add" }]).map MCPTool.name
        = [str "Math" ++ '_' :: str "add"] ∧
    (load_tools_rename (str "a") [{ name := str "b_c" }]).map MCPTool.name
        = (load_tools_rename (str "a_b") [{ name := str "c" }]).map MCPTool.name :=
  ⟨by decide, by decide, by decide⟩

/-- C6 (amended): every stored tool name is the lowercased owning service
name, an underscore, and the tool's original name; two services whose
lowercased names are distinct and underscore-free can never produce the
same stored tool name. -/
theorem C6_tool_renaming_amended (svc : Str) (raw : List MCPTool) :
    (load_tools_rename svc raw).map MCPTool.name
        = raw.map (fun t => pyLower svc ++ '_' :: t.name) ∧
    ∀ svc2 raw2, ¬ pyLower svc = pyLower svc2 →
      '_' ∉ pyLower svc → '_' ∉ pyLower svc2 →
      ∀ t1 ∈ load_tools_rename svc raw, ∀ t2 ∈ load_tools_rename svc2 raw2,
        ¬ t1.name = t2.name := by
  constructor
  · simp [load_tools_rename]
  · intro svc2 raw2 hsvc h1 h2 t1 ht1 t2 ht2 heq
    rcases List.mem_map.mp ht1 with ⟨u1, _, hu1⟩
    rcases List.mem_map.mp ht2 with ⟨u2, _, hu2⟩
    rw [← hu1, ← hu2] at heq
    simp only at heq
    exact hsvc (underscore_split_inj _ _ _ _ h1 h2 heq).1

/-- Witness for C6 (amended): services `Math` and `Calc`, each with tool
`add`. -/
theorem C6_tool_renaming_amended_witness :
    ((load_tools_rename (str "Math") [{ name := str "add" }]).map MCPTool.name
        = ([{ name := str "add" }] : List MCPTool).map
            (fun t => pyLower (str "Math") ++ '_' :: t.name) ∧
      ¬ ({ name := str "math_add" } : MCPTool).name
          = ({ name := str "calc_add" } : MCPTool).name) :=
  ⟨(C6_tool_renaming_amended (str "Math") [{ name := str "add" }]).1,
   (C6_tool_renaming_amended (str "Math") [{ name := str "add" }]).2
     (str "Calc") [{ name := str "add" }] (by decide) (by decide) (by decide)
     { name := str "math_add" } (by decide) { name := str "calc_add" } (by decide)⟩


/-! ## Claims C7, C8, C9 -/


theorem filterEntry_skip (cwd : Str) (tc : PyVal) (h : passesChecks tc = false) :
    filterEntry cwd tc = .ok Option.none := by
  cases tc with
  | dict kvs =>
    simp only [passesChecks] at h
    simp only [filterEntry]
    cases hargs : dictLookup (str "args") kvs with
    | none => rfl
    | some v =>
      rw [hargs] at h
      cases v <;> simp_all
  | str s => rfl
  | int n => rfl
  | bool b => rfl
  | list xs => rfl
  | none => rfl

theorem filterEntry_ok (cwd : Str) (tc : PyVal) (h1 : passesChecks tc = true)
    (h2 : hasRequiredKeys tc = true) :
    ∃ fe, filterEntry cwd tc = .ok (some fe) := by
  cases tc with
  | dict kvs =>
    simp only [passesChecks] at h1
    simp only [hasRequiredKeys, Bool.and_eq_true] at h2
    obtain ⟨⟨hcmd, htr⟩, hargs0⟩ := h2
    cases hargs : dictLookup (str "args") kvs with
    | none => rw [hargs] at h1; exact absurd h1 (by simp)
    | some v =>
      rw [hargs] at h1 hargs0
      cases v with
      | list args =>
        simp only [filterEntry, hargs]
        cases hc : dictLookup (str "command") kvs with
        | none => rw [hc] at hcmd; simp at hcmd
        | some cmd =>
          cases ht : dictLookup (str "transport") kvs with
          | none => rw [ht] at htr; simp at htr
          | some tr =>
            cases args with
            | nil => exact ⟨_, rfl⟩
            | cons a0 rest =>
              cases a0 with
              | str p =>
                by_cases hab : isAbsPath p = true
                · refine ⟨⟨cmd, .str p :: rest, tr⟩, ?_⟩
                  simp [hc, ht, hab]
                · refine ⟨⟨cmd, .str (pathJoin cwd p) :: rest, tr⟩, ?_⟩
                  simp [hc, ht, hab]
              | int n => simp at hargs0
              | bool b => simp at hargs0
              | list xs => simp at hargs0
              | dict kvs2 => simp at hargs0
              | none => simp at hargs0
      | str s => simp at h1
      | int n => simp at h1
      | bool b => simp at h1
      | dict kvs2 => simp at h1
      | none => simp at h1
  | str s => simp [passesChecks] at h1
  | int n => simp [passesChecks] at h1
  | bool b => simp [passesChecks] at h1
  | list xs => simp [passesChecks] at h1
  | none => simp [passesChecks] at h1

theorem buildFilteredConfig_ok (cwd : Str) (cfg : List (Str × PyVal))
    (h : ∀ p ∈ cfg, passesChecks p.2 = true → hasRequiredKeys p.2 = true) :
    ∃ l, buildFilteredConfig cwd cfg = .ok l ∧
      l.map Prod.fst = (cfg.filter (fun p => passesChecks p.2)).map Prod.fst := by
  induction cfg with
  | nil => exact ⟨[], rfl, rfl⟩
  | cons p rest ih =>
    obtain ⟨n, tc⟩ := p
    obtain ⟨l, hl, hnames⟩ := ih (fun q hq => h q (List.mem_cons_of_mem _ hq))
    by_cases hp : passesChecks tc = true
    · obtain ⟨fe, hfe⟩ := filterEntry_ok cwd tc hp (h (n, tc) (by simp) hp)
      refine ⟨(n, fe) :: l, ?_, ?_⟩
      · simp only [buildFilteredConfig, hfe, hl]
      · simp [hp, hnames]
    · have hskip := filterEntry_skip cwd tc (by simpa using hp)
      refine ⟨l, ?_, ?_⟩
      · simp only [buildFilteredConfig, hskip, hl]
      · simp [hp, hnames]

/-- C7 (amended): the loader skips exactly the entries failing its
explicit checks (non-dictionary, missing `args`, non-list `args`) and
loads every remaining entry, provided every remaining entry also carries
`command` and `transport` keys (and a string first argument); an entry
that passes the explicit checks but lacks those keys raises and aborts
the entire load (see the counterexample). -/
theorem C7_config_loading_amended (cwd : Str) (cfg : List (Str × PyVal))
    (hne : ¬ cfg = [])
    (h : ∀ p ∈ cfg, passesChecks p.2 = true → hasRequiredKeys p.2 = true) :
    ∃ l, mcpInitLoadedServices cwd cfg = some l ∧
      l.map Prod.fst = (cfg.filter (fun p => passesChecks p.2)).map Prod.fst := by
  obtain ⟨l, hl, hn⟩ := buildFilteredConfig_ok cwd cfg h
  cases cfg with
  | nil => exact absurd rfl hne
  | cons p rest => exact ⟨l, by simp only [mcpInitLoadedServices, hl], hn⟩

/-- C7 counterexample: a dictionary entry with a list `args` but no
`command` key passes all the explicit checks' skip conditions yet raises
`KeyError`, so the well-formed `good` entry is not loaded either — the
loader returns failure with nothing loaded, falsifying "a malformed entry
never aborts loading of the others". -/
theorem C7_counterexample_aborts_all :
    mcpInitLoadedServices (str "/cwd")
      [(str "bad", .dict [(str "args", .list [])]),
       (str "good", .dict [(str "command", .str (str "python")),
                           (str "args", .list [.str (str "/abs/x.py")]),
                           (str "transport", .str (str "stdio"))])]
      = Option.none ∧
    (∃ fe, filterEntry (str "/cwd")
        (.dict [(str "command", .str (str "python")),
                (str "args", .list [.str (str "/abs/x.py")]),
                (str "transport", .str (str "stdio"))]) = .ok (some fe)) :=
  ⟨rfl, ⟨⟨.str (str "python"), [.str (str "/abs/x.py")], .str (str "stdio")⟩, rfl⟩⟩

/-- Witness for C7 (amended): a non-dictionary entry is skipped while the
well-formed entry after it still loads. -/
theorem C7_config_loading_amended_witness :
    (¬ ([(str "x", PyVal.str (str "oops")),
        (str "good", PyVal.dict [(str "command", .str (str "python")),
                                 (str "args", .list [.str (str "/abs/x.py")]),
                                 (str "transport", .str (str "stdio"))])]
        : List (Str × PyVal)) = []) ∧
    (∃ l, mcpInitLoadedServices (str "/cwd")
        [(str "x", PyVal.str (str "oops")),
         (str "good", PyVal.dict [(str "command", .str (str "python")),
                                  (str "args", .list [.str (str "/abs/x.py")]),
                                  (str "transport", .str (str "stdio"))])]
        = some l ∧
      l.map Prod.fst
        = (([(str "x", PyVal.str (str "oops")),
             (str "good", PyVal.dict [(str "command", .str (str "python")),
                                      (str "args", .list [.str (str "/abs/x.py")]),
                                      (str "transport", .str (str "stdio"))])]
            : List (Str × PyVal)).filter
              (fun p => passesChecks p.2)).map Prod.fst) :=
  ⟨by simp,
   C7_config_loading_amended (str "/cwd") _ (by simp)
     (by
       intro p hp
       simp only [List.mem_cons, List.not_mem_nil, or_false] at hp
       rcases hp with h | h <;> subst h <;> intro h2
       · exact absurd h2 (by simp [passesChecks])
       · rfl)⟩

/-- Looking up the freshly assigned key. -/
theorem dictLookup_insert_self {A : Type} (k : Str) (v : A) (l : List (Str × A)) :
    dictLookup k (dictInsert k v l) = some v := by
  induction l with
  | nil => simp [dictInsert, dictLookup]
  | cons p rest ih =>
    obtain ⟨k2, v2⟩ := p
    by_cases hk : k2 = k
    · simp [dictInsert, dictLookup, hk]
    · simp [dictInsert, dictLookup, hk, ih]

/-- Assignment leaves every other key's binding unchanged. -/
theorem dictLookup_insert_ne {A : Type} (k k2 : Str) (v : A) (l : List (Str × A))
    (hk : ¬ k2 = k) : dictLookup k2 (dictInsert k v l) = dictLookup k2 l := by
  have hk2 : ¬ k = k2 := fun h => hk h.symm
  induction l with
  | nil => simp [dictInsert, dictLookup, hk2]
  | cons p rest ih =>
    obtain ⟨k3, v3⟩ := p
    by_cases h3 : k3 = k
    · subst h3
      simp [dictInsert, dictLookup, hk2]
    · simp [dictInsert, dictLookup, h3, ih]

/-- C8 counterexample: re-registering `a` over an existing connected
connector performs no disconnect (the event trace of `register_service`
is empty) even though a prior, connected connector was registered under
that name; the prior connector is simply replaced. -/
theorem C8_counterexample_no_disconnect :
    (register_service
        ⟨[(str "a", { service_name := str "a", tools := [{ name := str "a_t" }],
                      connected := true })]⟩ (str "a")).2.2 = [] ∧
    dictLookup (str "a")
        (⟨[(str "a", { service_name := str "a", tools := [{ name := str "a_t" }],
                       connected := true })]⟩ : ManagerState).connectors
      = some { service_name := str "a", tools := [{ name := str "a_t" }],
               connected := true } ∧
    (register_service
        ⟨[(str "a", { service_name := str "a", tools := [{ name := str "a_t" }],
                      connected := true })]⟩ (str "a")).1.connectors
      = [(str "a", { service_name := str "a", tools := [], connected := false })] :=
  ⟨rfl, rfl, rfl⟩

/-- C8 (amended): `register_service` is idempotent by name — registering
under an existing name replaces the prior connector and leaves every
other binding unchanged — but the prior connector is *not* disconnected:
the call performs no connector event at all. -/
theorem C8_register_replaces_amended (st : ManagerState) (name : Str) :
    (register_service st name).2.1 = true ∧
    (register_service st name).2.2 = [] ∧
    dictLookup name (register_service st name).1.connectors
      = some { service_name := name, tools := [], connected := false } ∧
    ∀ k, ¬ k = name →
      dictLookup k (register_service st name).1.connectors
        = dictLookup k st.connectors :=
  ⟨rfl, rfl, dictLookup_insert_self _ _ _,
   fun k hk => dictLookup_insert_ne name k _ _ hk⟩

/-- Witness for C8 (amended) at a one-entry registry. -/
theorem C8_register_replaces_amended_witness :
    ¬ (str "b") = (str "a") ∧
    dictLookup (str "b")
        (register_service
          ⟨[(str "a", { service_name := str "a", tools := [],
                        connected := true })]⟩ (str "a")).1.connectors
      = dictLookup (str "b")
          (⟨[(str "a", { service_name := str "a", tools := [],
                         connected := true })]⟩ : ManagerState).connectors :=
  ⟨by decide,
   (C8_register_replaces_amended
      ⟨[(str "a", { service_name := str "a", tools := [], connected := true })]⟩
      (str "a")).2.2.2 (str "b") (by decide)⟩

/-- Any construction yields a stored, initialized instance whose identity
the construction returns. -/
theorem manager_construct_inited (g : ClassState) :
    ∃ o : ManagerObj, o.initializedFlag = true ∧
      (manager_construct g).1.inst = some ((manager_construct g).2, o) := by
  cases hins : g.inst with
  | none =>
    refine ⟨{ initializedFlag := true, connectors := [] }, rfl, ?_⟩
    simp [manager_construct, manager_new, manager_init, hins]
  | some p =>
    obtain ⟨i, o⟩ := p
    by_cases hf : o.initializedFlag = true
    · exact ⟨o, hf, by simp [manager_construct, manager_new, manager_init, hins, hf]⟩
    · refine ⟨{ initializedFlag := true, connectors := [] }, rfl, ?_⟩
      simp [manager_construct, manager_new, manager_init, hins, hf]

/-- Constructing over an already initialized instance changes nothing and
returns that instance. -/
theorem manager_construct_stable (g : ClassState) (i : Nat) (o : ManagerObj)
    (hins : g.inst = some (i, o)) (hf : o.initializedFlag = true) :
    manager_construct g = (g, i) := by
  simp [manager_construct, manager_new, manager_init, hins, hf]

/-- C9: `MCPServiceManager()` is a process-wide singleton — after any
first construction, constructing again returns the identical instance
and re-runs no initialization (the class state is unchanged), and a
service registered through one reference is visible through the instance
any later construction returns. -/
theorem C9_manager_singleton (g : ClassState) :
    manager_construct (manager_construct g).1
      = ((manager_construct g).1, (manager_construct g).2) ∧
    ∀ name : Str,
      manager_construct
          (register_via (manager_construct g).1 (manager_construct g).2 name)
        = (register_via (manager_construct g).1 (manager_construct g).2 name,
           (manager_construct g).2) ∧
      ∃ conns,
        connectors_via (manager_construct g).1 (manager_construct g).2 = some conns ∧
        connectors_via
            (register_via (manager_construct g).1 (manager_construct g).2 name)
            (manager_construct g).2
          = some (dictInsert name
              { service_name := name, tools := [], connected := false } conns) := by
  obtain ⟨o, ho, hins⟩ := manager_construct_inited g
  refine ⟨manager_construct_stable _ _ _ hins ho, ?_⟩
  intro name
  constructor
  · have hreg : (register_via (manager_construct g).1 (manager_construct g).2 name).inst
        = some ((manager_construct g).2,
            { initializedFlag := o.initializedFlag,
              connectors :=
                dictInsert name
                  ({ service_name := name, tools := [], connected := false })
                  o.connectors }) := by
      simp [register_via, hins, register_service]
    exact manager_construct_stable _ _ _ hreg (by simpa using ho)
  · refine ⟨o.connectors, ?_, ?_⟩
    · simp [connectors_via, hins]
    · simp [connectors_via, register_via, hins, register_service]


/-! ## Claims C4, C10 -/


theorem dictLookup_filter_self {A : Type} (k : Str) (l : List (Str × A)) :
    dictLookup k (l.filter (fun p => ¬ p.1 = k)) = Option.none := by
  induction l with
  | nil => rfl
  | cons p rest ih =>
    obtain ⟨k2, v⟩ := p
    rw [List.filter_cons]
    by_cases h : k2 = k
    · rw [if_neg (by simp [h])]
      exact ih
    · rw [if_pos (by simp [h])]
      simp only [dictLookup, if_neg h]
      exact ih

/-- C4: a stdio invocation whose response does not arrive within the call
timeout terminates the underlying tool process, removes it from the
process dictionary (so the next invocation spawns afresh), and returns
the timeout error string to the caller instead of hanging or raising. -/
theorem C4_stdio_timeout_terminates_and_removes (tool_id : Str)
    (cfg : List (Str × PyVal)) (cmdv : PyVal) (st : ClientState)
    (env : AttemptEnv) (rest : List AttemptEnv)
    (hclose : env.stdinClosing = false)
    (hwrite : env.writeError = Option.none)
    (hresp : env.response = Option.none)
    (hspawn : env.spawn = .ok ())
    (hcmd : dictLookup (str "command") cfg = some cmdv) :
    (invoke_stdio_tool tool_id cfg (env :: rest) st).2.2
        = .result (timeoutMsg tool_id) ∧
    dictLookup tool_id (invoke_stdio_tool tool_id cfg (env :: rest) st).1.processes
        = Option.none ∧
    ∃ pid, ToolEvent.terminateProc pid ∈ (invoke_stdio_tool tool_id cfg (env :: rest) st).2.1 := by
  cases hlk : dictLookup tool_id st.processes with
  | none =>
    simp only [invoke_stdio_tool, hlk, hcmd, hspawn, hclose, hwrite, hresp]
    refine ⟨rfl, dictLookup_filter_self _ _, ⟨st.nextPid, by simp⟩⟩
  | some pid =>
    simp only [invoke_stdio_tool, hlk, hcmd, hspawn, hclose, hwrite, hresp]
    refine ⟨rfl, dictLookup_filter_self _ _, ⟨pid, by simp⟩⟩

/-- Witness for C4: the `math` tool with a fresh client state and a
timing-out attempt. -/
theorem C4_stdio_timeout_terminates_and_removes_witness :
    (({ spawn := .ok (), stdinClosing := false, writeError := Option.none,
        response := Option.none } : AttemptEnv).stdinClosing = false ∧
      dictLookup (str "command") [(str "command", PyVal.str (str "python"))]
        = some (PyVal.str (str "python"))) ∧
    ((invoke_stdio_tool (str "math") [(str "command", PyVal.str (str "python"))]
        [{ spawn := .ok (), stdinClosing := false, writeError := Option.none,
           response := Option.none }] ⟨[], 0⟩).2.2
        = .result (timeoutMsg (str "math")) ∧
      dictLookup (str "math")
          (invoke_stdio_tool (str "math") [(str "command", PyVal.str (str "python"))]
            [{ spawn := .ok (), stdinClosing := false, writeError := Option.none,
               response := Option.none }] ⟨[], 0⟩).1.processes
        = Option.none ∧
      ∃ pid, ToolEvent.terminateProc pid ∈
        (invoke_stdio_tool (str "math") [(str "command", PyVal.str (str "python"))]
          [{ spawn := .ok (), stdinClosing := false, writeError := Option.none,
             response := Option.none }] ⟨[], 0⟩).2.1) :=
  ⟨⟨rfl, rfl⟩,
   C4_stdio_timeout_terminates_and_removes (str "math")
     [(str "command", PyVal.str (str "python"))] (PyVal.str (str "python"))
     ⟨[], 0⟩
     { spawn := .ok (), stdinClosing := false, writeError := Option.none,
       response := Option.none }
     [] rfl rfl rfl rfl rfl⟩

/-- A prefix of the literal part survives appending a tail. -/
theorem isPrefixOf_append_left (p a t : Str) (h : p.isPrefixOf a = true) :
    p.isPrefixOf (a ++ t) = true := by
  rw [List.isPrefixOf_iff_prefix] at h ⊢
  exact h.trans (List.prefix_append a t)

/-- Membership in `attemptResults` is preserved by widening the run. -/
theorem mem_attemptResults_cons (env : AttemptEnv) (rest : List AttemptEnv)
    (s : Str) (h : s ∈ attemptResults rest) : s ∈ attemptResults (env :: rest) := by
  simp only [attemptResults, List.filterMap_cons] at h ⊢
  cases hf : (match env.response with
    | some (.jsonObj r e) =>
      match e with
      | some msg => if msg = [] then some r else Option.none
      | Option.none => some r
    | _ => Option.none : Option Str) with
  | none => exact h
  | some b => exact List.mem_cons_of_mem _ h

/-- `_invoke_stdio_tool` never lets an exception escape once the tool's
`command` is configured: the only raise is the `KeyError` on a missing
`command` in the first frame (nested frames' exceptions are caught by the
enclosing `try` and converted to `"Error invoking tool: …"` strings). -/
theorem invoke_stdio_no_raise (tool_id : Str) (cfg : List (Str × PyVal))
    (cmdv : PyVal) (hcmd : dictLookup (str "command") cfg = some cmdv)
    (attempts : List AttemptEnv) (st : ClientState) (e : PyExc) :
    ¬ (invoke_stdio_tool tool_id cfg attempts st).2.2 = .raised e := by
  cases attempts with
  | nil => simp [invoke_stdio_tool]
  | cons env rest =>
    obtain ⟨sp, cl, we, resp⟩ := env
    cases hlk : dictLookup tool_id st.processes with
    | none =>
      cases sp with
      | error msg => simp [invoke_stdio_tool, hlk, hcmd]
      | ok u =>
        cases cl with
        | true =>
          simp only [invoke_stdio_tool, hlk, hcmd]
          cases (invoke_stdio_tool tool_id cfg rest
              { processes := (dictInsert tool_id st.nextPid st.processes).filter
                  (fun p => ¬ p.1 = tool_id), nextPid := st.nextPid + 1 }).2.2 with
          | result s => simp
          | raised e2 => simp
          | outOfModel => simp
        | false =>
          cases we with
          | some msg => simp [invoke_stdio_tool, hlk, hcmd]
          | none =>
            cases resp with
            | none => simp [invoke_stdio_tool, hlk, hcmd]
            | some r =>
              cases r with
              | notJson raw => simp [invoke_stdio_tool, hlk, hcmd]
              | jsonObj res err =>
                cases err with
                | none => simp [invoke_stdio_tool, hlk, hcmd]
                | some msg =>
                  by_cases hm : msg = []
                  · simp [invoke_stdio_tool, hlk, hcmd, hm]
                  · simp [invoke_stdio_tool, hlk, hcmd, hm]
    | some pid =>
      cases cl with
      | true =>
        simp only [invoke_stdio_tool, hlk]
        cases (invoke_stdio_tool tool_id cfg rest
            { processes := st.processes.filter (fun p => ¬ p.1 = tool_id),
              nextPid := st.nextPid }).2.2 with
        | result s => simp
        | raised e2 => simp
        | outOfModel => simp
      | false =>
        cases we with
        | some msg => simp [invoke_stdio_tool, hlk]
        | none =>
          cases resp with
          | none => simp [invoke_stdio_tool, hlk]
          | some r =>
            cases r with
            | notJson raw => simp [invoke_stdio_tool, hlk]
            | jsonObj res err =>
              cases err with
              | none => simp [invoke_stdio_tool, hlk]
              | some msg =>
                by_cases hm : msg = []
                · simp [invoke_stdio_tool, hlk, hm]
                · simp [invoke_stdio_tool, hlk, hm]

/-- Every string `_invoke_stdio_tool` returns is either an
`Error`-prefixed failure report or the genuine `result` member of one of
the run's parsed responses. -/
theorem invoke_stdio_result_shape (tool_id : Str) (cfg : List (Str × PyVal)) :
    ∀ (attempts : List AttemptEnv) (st : ClientState) (s : Str),
      (invoke_stdio_tool tool_id cfg attempts st).2.2 = .result s →
      (str "Error").isPrefixOf s = true ∨ s ∈ attemptResults attempts := by
  intro attempts
  induction attempts with
  | nil => intro st s h; simp [invoke_stdio_tool] at h
  | cons env rest ih =>
    intro st s h
    obtain ⟨sp, cl, we, resp⟩ := env
    have herr1 : ∀ t : Str,
        (str "Error").isPrefixOf (str "Error: Could not start tool process: " ++ t)
          = true := fun t => isPrefixOf_append_left _ _ _ (by decide)
    have herr2 : ∀ t : Str,
        (str "Error").isPrefixOf (str "Error invoking tool: " ++ t) = true :=
      fun t => isPrefixOf_append_left _ _ _ (by decide)
    have herr3 : ∀ t : Str,
        (str "Error").isPrefixOf (str "Error parsing tool response: " ++ t) = true :=
      fun t => isPrefixOf_append_left _ _ _ (by decide)
    have herr4 : ∀ t : Str,
        (str "Error").isPrefixOf (str "Error: " ++ t) = true :=
      fun t => isPrefixOf_append_left _ _ _ (by decide)
    have herrT : (str "Error").isPrefixOf (timeoutMsg tool_id) = true := by
      simp only [timeoutMsg, List.append_assoc]
      exact isPrefixOf_append_left _ _ _ (by decide)
    cases hlk : dictLookup tool_id st.processes with
    | none =>
      cases sp with
      | error msg =>
        simp only [invoke_stdio_tool, hlk] at h
        cases hc : dictLookup (str "command") cfg with
        | none => rw [hc] at h; simp at h
        | some cmdv =>
          rw [hc] at h
          simp at h
          exact Or.inl (h ▸ herr1 msg)
      | ok u =>
        cases hc : dictLookup (str "command") cfg with
        | none => simp [invoke_stdio_tool, hlk, hc] at h
        | some cmdv =>
          cases cl with
          | true =>
            simp only [invoke_stdio_tool, hlk, hc] at h
            cases hr : (invoke_stdio_tool tool_id cfg rest
                { processes := (dictInsert tool_id st.nextPid st.processes).filter
                    (fun p => ¬ p.1 = tool_id), nextPid := st.nextPid + 1 }).2.2 with
            | result s2 =>
              rw [hr] at h
              simp at h
              rcases ih _ _ hr with hpre | hmem
              · exact Or.inl (h ▸ hpre)
              · exact Or.inr (h ▸ mem_attemptResults_cons _ _ _ hmem)
            | raised e2 =>
              rw [hr] at h
              simp at h
              exact Or.inl (h ▸ herr2 (pyExcMsg e2))
            | outOfModel => rw [hr] at h; simp at h
          | false =>
            cases we with
            | some msg =>
              simp only [invoke_stdio_tool, hlk, hc] at h
              simp at h
              exact Or.inl (h ▸ herr2 msg)
            | none =>
              cases resp with
              | none =>
                simp only [invoke_stdio_tool, hlk, hc] at h
                simp at h
                exact Or.inl (h ▸ herrT)
              | some r =>
                cases r with
                | notJson raw =>
                  simp only [invoke_stdio_tool, hlk, hc] at h
                  simp at h
                  exact Or.inl (h ▸ herr3 raw)
                | jsonObj res err =>
                  cases err with
                  | none =>
                    simp only [invoke_stdio_tool, hlk, hc] at h
                    simp at h
                    refine Or.inr ?_
                    subst h
                    simp [attemptResults, List.filterMap_cons]
                  | some msg =>
                    by_cases hm : msg = []
                    · simp [invoke_stdio_tool, hlk, hc, hm] at h
                      refine Or.inr ?_
                      subst h
                      simp [attemptResults, List.filterMap_cons, hm]
                    · simp only [invoke_stdio_tool, hlk, hc] at h
                      rw [if_neg hm] at h
                      simp at h
                      exact Or.inl (h ▸ herr4 msg)
    | some pid =>
      cases cl with
      | true =>
        simp only [invoke_stdio_tool, hlk] at h
        cases hr : (invoke_stdio_tool tool_id cfg rest
            { processes := st.processes.filter (fun p => ¬ p.1 = tool_id),
              nextPid := st.nextPid }).2.2 with
        | result s2 =>
          rw [hr] at h
          simp at h
          rcases ih _ _ hr with hpre | hmem
          · exact Or.inl (h ▸ hpre)
          · exact Or.inr (h ▸ mem_attemptResults_cons _ _ _ hmem)
        | raised e2 =>
          rw [hr] at h
          simp at h
          exact Or.inl (h ▸ herr2 (pyExcMsg e2))
        | outOfModel => rw [hr] at h; simp at h
      | false =>
        cases we with
        | some msg =>
          simp only [invoke_stdio_tool, hlk] at h
          simp at h
          exact Or.inl (h ▸ herr2 msg)
        | none =>
          cases resp with
          | none =>
            simp only [invoke_stdio_tool, hlk] at h
            simp at h
            exact Or.inl (h ▸ herrT)
          | some r =>
            cases r with
            | notJson raw =>
              simp only [invoke_stdio_tool, hlk] at h
              simp at h
              exact Or.inl (h ▸ herr3 raw)
            | jsonObj res err =>
              cases err with
              | none =>
                simp only [invoke_stdio_tool, hlk] at h
                simp at h
                refine Or.inr ?_
                subst h
                simp [attemptResults, List.filterMap_cons]
              | some msg =>
                by_cases hm : msg = []
                · simp [invoke_stdio_tool, hlk, hm] at h
                  refine Or.inr ?_
                  subst h
                  simp [attemptResults, List.filterMap_cons, hm]
                · simp only [invoke_stdio_tool, hlk] at h
                  rw [if_neg hm] at h
                  simp at h
                  exact Or.inl (h ▸ herr4 msg)

/-- `_invoke_http_tool` raises only through its `url` guard: with a truthy
`url` every outcome is an ordinary returned string. -/
theorem invoke_http_no_raise (tool_id : Str) (cfg : List (Str × PyVal))
    (env : HttpOutcome)
    (hurl : pyTruthyOpt (dictLookup (str "url") cfg) = true) (e : PyExc) :
    ¬ invoke_http_tool tool_id cfg env = .raised e := by
  simp only [invoke_http_tool, hurl]
  cases env with
  | clientRaised msg => simp
  | response status parse =>
    by_cases hs : status = 200
    · cases parse with
      | error msg => simp [hs]
      | ok p =>
        obtain ⟨r, err⟩ := p
        cases err with
        | none => simp [hs]
        | some msg =>
          by_cases hm : msg = []
          · simp [hs, hm]
          · simp [hs, hm]
    · simp [hs]

/-- Every string `_invoke_http_tool` returns is either `Error`-prefixed or
the genuine 200-response `result`. -/
theorem invoke_http_result_shape (tool_id : Str) (cfg : List (Str × PyVal))
    (env : HttpOutcome) (s : Str)
    (h : invoke_http_tool tool_id cfg env = .result s) :
    (str "Error").isPrefixOf s = true ∨ httpSuccessResult env = some s := by
  have herr2 : ∀ t : Str,
      (str "Error").isPrefixOf (str "Error invoking tool: " ++ t) = true :=
    fun t => isPrefixOf_append_left _ _ _ (by decide)
  have herr4 : ∀ t : Str,
      (str "Error").isPrefixOf (str "Error: " ++ t) = true :=
    fun t => isPrefixOf_append_left _ _ _ (by decide)
  have herr5 : ∀ t : Str,
      (str "Error").isPrefixOf (str "Error: HTTP status " ++ t) = true :=
    fun t => isPrefixOf_append_left _ _ _ (by decide)
  by_cases hurl : pyTruthyOpt (dictLookup (str "url") cfg) = false
  · simp [invoke_http_tool, hurl] at h
  · simp only [invoke_http_tool, hurl, if_neg] at h
    cases env with
    | clientRaised msg =>
      simp at h
      exact Or.inl (h ▸ herr2 msg)
    | response status parse =>
      by_cases hs : status = 200
      · subst hs
        cases parse with
        | error msg =>
          simp at h
          exact Or.inl (h ▸ herr2 msg)
        | ok p =>
          obtain ⟨r, err⟩ := p
          cases err with
          | none =>
            simp at h
            exact Or.inr (by simp [httpSuccessResult, ← h])
          | some msg =>
            by_cases hm : msg = []
            · simp [hm] at h
              exact Or.inr (by simp [httpSuccessResult, hm, ← h])
            · simp [hm] at h
              exact Or.inl (h ▸ herr4 msg)
      · simp [hs] at h
        exact Or.inl (h ▸ herr5 (natToDec status))

/-- C10 (amended): `invoke_tool` raises exactly for an unknown tool id,
an unsupported transport, an `http` tool whose configuration lacks a
truthy `url`, or a `stdio` tool that must spawn without a configured
`command`; every transport-level failure (spawn failure, call timeout,
non-JSON response line, tool-reported error, HTTP non-200 status, client
exception) comes back as an ordinary result string beginning with
`Error`, indistinguishable by type from a genuine tool result. -/
theorem C10_invoke_tool_amended :
    (∀ (toolsConfig : List (Str × List (Str × PyVal))) (tool_id : Str)
        (attempts : List AttemptEnv) (http : HttpOutcome) (st : ClientState),
      dictLookup tool_id toolsConfig = Option.none →
        invoke_tool toolsConfig tool_id attempts http st
          = (st, [], .raised (.valueError
              (str "Tool '" ++ tool_id ++ str "' not found in config")))) ∧
    (∀ (toolsConfig : List (Str × List (Str × PyVal))) (tool_id : Str)
        (cfg : List (Str × PyVal)) (attempts : List AttemptEnv)
        (http : HttpOutcome) (st : ClientState) (t : Str),
      dictLookup tool_id toolsConfig = some cfg →
      dictLookup (str "transport") cfg = some (.str t) →
      ¬ t = str "stdio" → ¬ t = str "http" →
        invoke_tool toolsConfig tool_id attempts http st
          = (st, [], .raised (.valueError
              (str "Unsupported transport '" ++ t ++ str "' for tool '"
                ++ tool_id ++ str "'")))) ∧
    (∀ (toolsConfig : List (Str × List (Str × PyVal))) (tool_id : Str)
        (cfg : List (Str × PyVal)) (attempts : List AttemptEnv)
        (http : HttpOutcome) (st : ClientState),
      dictLookup tool_id toolsConfig = some cfg →
      dictLookup (str "transport") cfg = some (.str (str "http")) →
      pyTruthyOpt (dictLookup (str "url") cfg) = false →
        invoke_tool toolsConfig tool_id attempts http st
          = (st, [], .raised (.valueError
              (str "Missing 'url' in config for HTTP tool '" ++ tool_id ++ str "'")))) ∧
    (∀ (toolsConfig : List (Str × List (Str × PyVal))) (tool_id : Str)
        (cfg : List (Str × PyVal)) (env : AttemptEnv) (rest : List AttemptEnv)
        (http : HttpOutcome) (st : ClientState),
      dictLookup tool_id toolsConfig = some cfg →
      dictLookup (str "transport") cfg = some (.str (str "stdio")) →
      dictLookup tool_id st.processes = Option.none →
      dictLookup (str "command") cfg = Option.none →
        invoke_tool toolsConfig tool_id (env :: rest) http st
          = (st, [], .raised (.keyError (str "command")))) ∧
    (∀ (toolsConfig : List (Str × List (Str × PyVal))) (tool_id : Str)
        (cfg : List (Str × PyVal)) (cmdv : PyVal) (attempts : List AttemptEnv)
        (http : HttpOutcome) (st : ClientState) (e : PyExc),
      dictLookup tool_id toolsConfig = some cfg →
      dictLookup (str "transport") cfg = some (.str (str "stdio")) →
      dictLookup (str "command") cfg = some cmdv →
        ¬ (invoke_tool toolsConfig tool_id attempts http st).2.2 = .raised e) ∧
    (∀ (toolsConfig : List (Str × List (Str × PyVal))) (tool_id : Str)
        (cfg : List (Str × PyVal)) (attempts : List AttemptEnv)
        (http : HttpOutcome) (st : ClientState) (e : PyExc),
      dictLookup tool_id toolsConfig = some cfg →
      dictLookup (str "transport") cfg = some (.str (str "http")) →
      pyTruthyOpt (dictLookup (str "url") cfg) = true →
        ¬ (invoke_tool toolsConfig tool_id attempts http st).2.2 = .raised e) ∧
    (∀ (toolsConfig : List (Str × List (Str × PyVal))) (tool_id : Str)
        (cfg : List (Str × PyVal)) (attempts : List AttemptEnv)
        (http : HttpOutcome) (st : ClientState) (s : Str),
      dictLookup tool_id toolsConfig = some cfg →
      dictLookup (str "transport") cfg = some (.str (str "stdio")) →
      (invoke_tool toolsConfig tool_id attempts http st).2.2 = .result s →
        (str "Error").isPrefixOf s = true ∨ s ∈ attemptResults attempts) ∧
    (∀ (toolsConfig : List (Str × List (Str × PyVal))) (tool_id : Str)
        (cfg : List (Str × PyVal)) (attempts : List AttemptEnv)
        (http : HttpOutcome) (st : ClientState) (s : Str),
      dictLookup tool_id toolsConfig = some cfg →
      dictLookup (str "transport") cfg = some (.str (str "http")) →
      (invoke_tool toolsConfig tool_id attempts http st).2.2 = .result s →
        (str "Error").isPrefixOf s = true ∨ httpSuccessResult http = some s) := by
  refine ⟨?_, ?_, ?_, ?_, ?_, ?_, ?_, ?_⟩
  · intro toolsConfig tool_id attempts http st hl
    simp [invoke_tool, hl]
  · intro toolsConfig tool_id cfg attempts http st t hl htr h1 h2
    simp [invoke_tool, hl, htr, h1, h2]
  · intro toolsConfig tool_id cfg attempts http st hl htr hurl
    have hne : ¬ (str "http" : Str) = str "stdio" := by decide
    simp [invoke_tool, hl, htr, hne, invoke_http_tool, hurl]
  · intro toolsConfig tool_id cfg env rest http st hl htr hlk hcmd
    simp only [invoke_tool, hl, htr, if_pos rfl]
    simp [invoke_stdio_tool, hlk, hcmd]
  · intro toolsConfig tool_id cfg cmdv attempts http st e hl htr hcmd
    simp only [invoke_tool, hl, htr, if_pos rfl]
    exact invoke_stdio_no_raise tool_id cfg cmdv hcmd attempts st e
  · intro toolsConfig tool_id cfg attempts http st e hl htr hurl
    have hne : ¬ (str "http" : Str) = str "stdio" := by decide
    have hng := invoke_http_no_raise tool_id cfg http hurl e
    simp [invoke_tool, hl, htr, hne, hng]
  · intro toolsConfig tool_id cfg attempts http st s hl htr h
    simp only [invoke_tool, hl, htr, if_pos rfl] at h
    exact invoke_stdio_result_shape tool_id cfg attempts st s h
  · intro toolsConfig tool_id cfg attempts http st s hl htr h
    have hne : ¬ (str "http" : Str) = str "stdio" := by decide
    simp [invoke_tool, hl, htr, hne] at h
    exact invoke_http_result_shape tool_id cfg http s h

/-- C10 counterexample: the tool `web` *is* configured and its transport
`http` *is* supported, yet `invoke_tool` raises (`ValueError` for the
missing `url`) — so "raises only when the tool id is absent or its
transport kind is unsupported" is false. -/
theorem C10_counterexample_raises_on_missing_url :
    invoke_tool [(str "web", [(str "transport", PyVal.str (str "http"))])]
        (str "web") [] (.clientRaised (str "x")) ⟨[], 0⟩
      = (⟨[], 0⟩, [],
         .raised (.valueError (str "Missing 'url' in config for HTTP tool 'web'"))) ∧
    dictLookup (str "web") [(str "web", [(str "transport", PyVal.str (str "http"))])]
      = some [(str "transport", PyVal.str (str "http"))] :=
  ⟨rfl, rfl⟩

/-- Witness for C10 (amended): the unknown-tool conjunct at an empty
configuration, and the missing-`command` KeyError conjunct at a stdio
tool configured without a `command`. -/
theorem C10_invoke_tool_amended_witness :
    (dictLookup (str "nope") ([] : List (Str × List (Str × PyVal))) = Option.none ∧
      invoke_tool [] (str "nope") [] (.clientRaised (str "x")) ⟨[], 0⟩
        = (⟨[], 0⟩, [],
           .raised (.valueError (str "Tool 'nope' not found in config")))) ∧
    (dictLookup (str "command") [(str "transport", PyVal.str (str "stdio"))]
        = Option.none ∧
      invoke_tool [(str "m", [(str "transport", PyVal.str (str "stdio"))])] (str "m")
          [{ spawn := .ok (), stdinClosing := false, writeError := Option.none,
             response := Option.none }] (.clientRaised (str "x")) ⟨[], 0⟩
        = (⟨[], 0⟩, [], .raised (.keyError (str "command")))) :=
  ⟨⟨rfl,
    C10_invoke_tool_amended.1 [] (str "nope") [] (.clientRaised (str "x")) ⟨[], 0⟩ rfl⟩,
   ⟨rfl,
    C10_invoke_tool_amended.2.2.2.1
      [(str "m", [(str "transport", PyVal.str (str "stdio"))])] (str "m")
      [(str "transport", PyVal.str (str "stdio"))]
      { spawn := .ok (), stdinClosing := false, writeError := Option.none,
        response := Option.none }
      [] (.clientRaised (str "x")) ⟨[], 0⟩ rfl rfl rfl rfl⟩⟩


end McpGateway
